import Mathlib

/-!
Verification of the session/media-state reconciliation layer of the
baithak-frontend repository, against its specification.

The definitions below are shallow embeddings of the two reconciliation
implementations the claims cite:

* `useMediasoup` in `src/hooks/useWebRTC.ts` — roster of `RemoteParticipant`
  records updated by the `newPeer`, `newProducer`/`consumeProducer`,
  `peerLeft` and `consumerClosed` socket handlers, plus the `toggleMute`
  command surface and the connect-effect guard.
* `useLiveKit` in `src/hooks/useLiveKit.ts` — roster of SDK participants
  updated by the `ParticipantConnected`, `ParticipantDisconnected` and
  `ActiveSpeakersChanged` handlers, plus `toggleMute`/`toggleVideo`,
  the connect-effect guard and the `mounted` cancellation token of
  `connectRoom`.

Media track handles (`MediaStreamTrack`, consumer tracks) are modelled as
opaque natural numbers; participant identities and display names as strings.
-/

/-- The two media kinds of `mediasoup-client` (`"audio" | "video"`). -/
inductive MediaKind where
  | audio
  | video
deriving DecidableEq, Repr

/-- The opposite media kind; used to state frame conditions. -/
def MediaKind.other : MediaKind → MediaKind
  | .audio => .video
  | .video => .audio

/-- `RemoteParticipant` of `src/hooks/useWebRTC.ts` (lines 130-137):
`{ id, name, videoTrack, audioTrack, isMuted, isVideoOff }`, with track
handles modelled as `Option Nat`. -/
structure RemoteParticipant where
  id : String
  name : String
  videoTrack : Option Nat
  audioTrack : Option Nat
  isMuted : Bool
  isVideoOff : Bool
deriving DecidableEq, Repr

/-- The track slot of a participant for a given kind. -/
def trackOf : MediaKind → RemoteParticipant → Option Nat
  | .audio, p => p.audioTrack
  | .video, p => p.videoTrack

/-- The enabled flag of a participant for a given kind: the microphone is
enabled iff `isMuted` is false, the camera iff `isVideoOff` is false. -/
def enabledOf : MediaKind → RemoteParticipant → Bool
  | .audio, p => !p.isMuted
  | .video, p => !p.isVideoOff

/-- The fresh participant the `newPeer` handler inserts
(`useWebRTC.ts` lines 610-620): no tracks, `isMuted: true`,
`isVideoOff: true`. -/
def freshPeer (peerId peerName : String) : RemoteParticipant :=
  { id := peerId, name := peerName, videoTrack := none, audioTrack := none,
    isMuted := true, isVideoOff := true }

/-- The `newPeer` socket handler of `useMediasoup`
(`useWebRTC.ts` lines 607-622): if an entry with the id is already in the
roster the update returns the roster unchanged, otherwise it appends a
fresh participant. -/
def applyNewPeer (peerId peerName : String) (prev : List RemoteParticipant) :
    List RemoteParticipant :=
  if (prev.find? (fun p => p.id == peerId)).isSome then prev
  else prev ++ [freshPeer peerId peerName]

/-- The per-participant update of `consumeProducer`
(`useWebRTC.ts` lines 277-287): stores the consumer track in the slot for
its kind and clears the corresponding off/muted flag. -/
def consumeUpd (kind : MediaKind) (track : Nat) (p : RemoteParticipant) :
    RemoteParticipant :=
  match kind with
  | .video => { p with videoTrack := some track, isVideoOff := false }
  | .audio => { p with audioTrack := some track, isMuted := false }

/-- The participant `consumeProducer` creates when no entry with the peer id
exists (`useWebRTC.ts` lines 292-302): only the arriving kind has a track,
`isMuted: kind !== "audio"`, `isVideoOff: kind !== "video"`. -/
def freshWithTrack (peerId peerName : String) (kind : MediaKind) (track : Nat) :
    RemoteParticipant :=
  { id := peerId, name := peerName,
    videoTrack := if kind == .video then some track else none,
    audioTrack := if kind == .audio then some track else none,
    isMuted := kind != .audio,
    isVideoOff := kind != .video }

/-- The roster update performed by `consumeProducer`
(`useWebRTC.ts` lines 271-304): if `prev.find(p => p.id === peerId)` hits,
every entry with the id is updated with the new track, otherwise a new
participant carrying the track is appended. -/
def applyTrackAvailable (peerId peerName : String) (kind : MediaKind)
    (track : Nat) (prev : List RemoteParticipant) : List RemoteParticipant :=
  if (prev.find? (fun p => p.id == peerId)).isSome then
    prev.map (fun p => if p.id == peerId then consumeUpd kind track p else p)
  else
    prev ++ [freshWithTrack peerId peerName kind track]

/-- The roster part of the `peerLeft` handler
(`useWebRTC.ts` line 637): `prev.filter(p => p.id !== peerId)`. -/
def applyPeerLeft (peerId : String) (prev : List RemoteParticipant) :
    List RemoteParticipant :=
  prev.filter (fun p => p.id != peerId)

/-- Roster-affecting events of the `useMediasoup` socket protocol. -/
inductive RosterEvent where
  | newPeer (peerId peerName : String)
  | trackAvail (peerId peerName : String) (kind : MediaKind) (track : Nat)
  | peerLeft (peerId : String)
deriving DecidableEq, Repr

/-- Dispatch of one roster event to its handler. -/
def applyEvent : RosterEvent → List RemoteParticipant → List RemoteParticipant
  | .newPeer i n, s => applyNewPeer i n s
  | .trackAvail i n k t, s => applyTrackAvailable i n k t s
  | .peerLeft i, s => applyPeerLeft i s

/-- Application of a sequence of roster events in receipt order. -/
def applyEvents (es : List RosterEvent) (s : List RemoteParticipant) :
    List RemoteParticipant :=
  es.foldl (fun acc e => applyEvent e acc) s

/-- The roster holds at most one entry per participant id. -/
abbrev uniqueIds (s : List RemoteParticipant) : Prop :=
  (s.map (fun p => p.id)).Nodup

/-- The roster-and-speaker state of `useLiveKit`
(`src/hooks/useLiveKit.ts` lines 26 and 34): the `participants` list holds
remote participants (modelled by their `identity` strings) and
`activeSpeaker` the last reported speaker. -/
structure LkRoomState where
  participants : List String
  activeSpeaker : Option String
deriving DecidableEq, Repr

/-- The `ParticipantConnected` handler (`useLiveKit.ts` lines 104-106):
`setParticipants(prev => [...prev, participant])` — an unconditional
append. -/
def lkParticipantConnected (identity : String) (s : LkRoomState) :
    LkRoomState :=
  { s with participants := s.participants ++ [identity] }

/-- The `ParticipantDisconnected` handler (`useLiveKit.ts` lines 108-112):
filters the departed identity out of the participant list and touches
nothing else. -/
def lkParticipantDisconnected (identity : String) (s : LkRoomState) :
    LkRoomState :=
  { s with participants := s.participants.filter (fun p => p != identity) }

/-- The `ActiveSpeakersChanged` handler (`useLiveKit.ts` lines 114-118):
`if (speakers.length > 0) setActiveSpeaker(speakers[0])` — an empty ranked
list changes nothing. -/
def lkActiveSpeakersChanged (speakers : List String) (s : LkRoomState) :
    LkRoomState :=
  match speakers with
  | [] => s
  | top :: _ => { s with activeSpeaker := some top }

/-- Commands `useLiveKit` issues to the LiveKit engine. -/
inductive EngineCmd where
  | setMicrophoneEnabled (v : Bool)
  | setCameraEnabled (v : Bool)
  | enableCameraAndMicrophone
  | disconnect
deriving DecidableEq, Repr

/-- The engine-side flags of `room.localParticipant` read by the toggles
(`isMicrophoneEnabled`, `isCameraEnabled`). -/
structure LkLocal where
  micEnabled : Bool
  camEnabled : Bool
deriving DecidableEq, Repr

/-- The state touched by `useLiveKit`'s `toggleMute`/`toggleVideo`:
the `localParticipant` React state (absent until the join continuation has
run) and the `isMuted`/`isVideoOff` flags. -/
structure LkToggleState where
  localParticipant : Option LkLocal
  isMuted : Bool
  isVideoOff : Bool
deriving DecidableEq, Repr

/-- `toggleMute` of `useLiveKit.ts` (lines 150-155).  With no local
participant it returns at once (no command, no state change, resolves
normally).  Otherwise it issues `setMicrophoneEnabled(!enabled)`; when the
engine command succeeds (`engineOk`) the engine flag becomes `!enabled` and
the code then runs `setIsMuted(!enabled)`; when it fails the rejection
propagates (third component `false`) with no state write. -/
def lkToggleMute (s : LkToggleState) (engineOk : Bool) :
    LkToggleState × List EngineCmd × Bool :=
  match s.localParticipant with
  | none => (s, [], true)
  | some lp =>
    if engineOk then
      ({ s with localParticipant := some { lp with micEnabled := !lp.micEnabled },
                isMuted := !lp.micEnabled },
       [EngineCmd.setMicrophoneEnabled (!lp.micEnabled)], true)
    else
      (s, [EngineCmd.setMicrophoneEnabled (!lp.micEnabled)], false)

/-- `toggleVideo` of `useLiveKit.ts` (lines 157-162), mirror image of
`lkToggleMute` for the camera. -/
def lkToggleVideo (s : LkToggleState) (engineOk : Bool) :
    LkToggleState × List EngineCmd × Bool :=
  match s.localParticipant with
  | none => (s, [], true)
  | some lp =>
    if engineOk then
      ({ s with localParticipant := some { lp with camEnabled := !lp.camEnabled },
                isVideoOff := !lp.camEnabled },
       [EngineCmd.setCameraEnabled (!lp.camEnabled)], true)
    else
      (s, [EngineCmd.setCameraEnabled (!lp.camEnabled)], false)

/-- The React/ref state of a `useLiveKit` session that the `connectRoom`
continuation and the effect cleanup touch (`useLiveKit.ts` lines 25-37):
the `mounted` closure flag, the `isConnectingRef`/`hasConnectedRef` guard
refs, and the roster/session React state. -/
structure LkSession where
  mounted : Bool
  isConnectingRef : Bool
  hasConnectedRef : Bool
  isConnecting : Bool
  room : Option Nat
  localParticipant : Option String
  participants : List String
  isMuted : Bool
  isVideoOff : Bool
deriving DecidableEq, Repr

/-- The effect cleanup of `useLiveKit` (`useLiveKit.ts` lines 142-147),
which is how a leave supersedes an in-flight join: it sets `mounted` to
`false`, resets both guard refs and disconnects the room. -/
def lkLeaveCleanup (s : LkSession) : LkSession × List EngineCmd :=
  ({ s with mounted := false, isConnectingRef := false,
            hasConnectedRef := false },
   [EngineCmd.disconnect])

/-- The continuation of `connectRoom` that runs once `lkRoom.connect`
resolves (`useLiveKit.ts` lines 79-131).  If `mounted` has been cleared it
disconnects the freshly connected room, resets `isConnectingRef` and
returns without touching any other state; otherwise it records the room,
local participant and remote roster, enables camera and microphone
(clearing `isMuted`/`isVideoOff` only when that succeeds, `enableOk`) and
ends the connecting phase. -/
def lkJoinSuccessCont (roomHandle : Nat) (localId : String)
    (remoteIds : List String) (enableOk : Bool) (s : LkSession) :
    LkSession × List EngineCmd :=
  if !s.mounted then
    ({ s with isConnectingRef := false }, [EngineCmd.disconnect])
  else
    let s1 := { s with hasConnectedRef := true, room := some roomHandle,
                       localParticipant := some localId,
                       participants := remoteIds }
    let s2 := if enableOk then { s1 with isMuted := false, isVideoOff := false }
              else s1
    ({ s2 with isConnecting := false }, [EngineCmd.enableCameraAndMicrophone])

/-- The inputs of the `useLiveKit` connect effect guard plus a count of
connection attempts started (`useLiveKit.ts` lines 44-57). -/
structure LkCtl where
  enabled : Bool
  url : String
  token : String
  isConnectingRef : Bool
  hasConnectedRef : Bool
  attempts : Nat
deriving DecidableEq, Repr

/-- One invocation of the `useLiveKit` connect effect
(`useLiveKit.ts` lines 44-57): it returns at once when disabled, a
credential is empty, or either guard ref is set; otherwise it sets
`isConnectingRef` synchronously and starts a connection attempt. -/
def lkConnectEffect (s : LkCtl) : LkCtl :=
  if !s.enabled || s.url == "" || s.token == "" || s.isConnectingRef
      || s.hasConnectedRef then s
  else { s with isConnectingRef := true, attempts := s.attempts + 1 }

/-- The inputs of the `useMediasoup` connect effect guard plus a count of
connection attempts started (`useWebRTC.ts` lines 327-334).  The guard
reads only `isConnectedRef`, which the async `connect` body sets once it
completes (line 577); `connectInFlight` records that `connect()` was
started and is still pending. -/
structure MsCtl where
  hasSocket : Bool
  roomId : String
  userName : String
  isConnectedRef : Bool
  connectInFlight : Bool
  attempts : Nat
deriving DecidableEq, Repr

/-- One invocation of the `useMediasoup` connect effect
(`useWebRTC.ts` line 328): `if (!socket || !roomId || !userName ||
isConnectedRef.current) return;` and otherwise `connect()` is started. -/
def msConnectEffect (s : MsCtl) : MsCtl :=
  if !s.hasSocket || s.roomId == "" || s.userName == "" || s.isConnectedRef
  then s
  else { s with connectInFlight := true, attempts := s.attempts + 1 }

/-- Completion of the `useMediasoup` `connect()` body
(`useWebRTC.ts` line 577): `isConnectedRef.current = true`. -/
def msConnectComplete (s : MsCtl) : MsCtl :=
  { s with isConnectedRef := true, connectInFlight := false }

/-- Commands `useMediasoup`'s `toggleMute` issues
(`useWebRTC.ts` lines 790-829): producer pause/resume/produce awaits and
the fire-and-forget socket notifications. -/
inductive MsCmd where
  | resumeProducer
  | pauseProducer
  | produceAudio
  | emitResumeProducer
  | emitPauseProducer
deriving DecidableEq, Repr

/-- The `localParticipant` fields `toggleMute` writes
(`useWebRTC.ts` lines 811-812 and 825-826). -/
structure MsLocal where
  isMicrophoneEnabled : Bool
  isMuted : Bool
deriving DecidableEq, Repr

/-- The state read and written by `useMediasoup`'s `toggleMute`:
the `isMuted` React state, presence of the audio producer and of a local
audio track, presence of the send transport, the raw
`MediaStreamTrack.enabled` flag of the local audio track, and the
`localParticipant` record (absent before the join completes). -/
structure MsToggle where
  isMuted : Bool
  hasAudioProducer : Bool
  hasAudioTrack : Bool
  hasSendTransport : Bool
  audioTrackEnabled : Bool
  localParticipant : Option MsLocal
deriving DecidableEq, Repr

/-- `toggleMute` of `useMediasoup` (`useWebRTC.ts` lines 790-829).
Unmuting resumes the existing audio producer (or produces one from the
local track); muting pauses the producer.  `engineOk` is whether the
awaited producer operation succeeds; on failure the rejection propagates
(third component `false`) before any flag is written — except that in the
produce path `audioTrack.enabled = true` has already been set.  With
neither a producer nor a track, the flags are flipped with no engine
command at all. -/
def msToggleMute (s : MsToggle) (engineOk : Bool) :
    MsToggle × List MsCmd × Bool :=
  if s.isMuted then
    if s.hasAudioProducer then
      if engineOk then
        ({ s with isMuted := false,
                  localParticipant := s.localParticipant.map (fun lp =>
                    { lp with isMicrophoneEnabled := true, isMuted := false }) },
         [MsCmd.resumeProducer, MsCmd.emitResumeProducer], true)
      else (s, [MsCmd.resumeProducer], false)
    else if s.hasAudioTrack && s.hasSendTransport then
      if engineOk then
        ({ s with audioTrackEnabled := true, hasAudioProducer := true,
                  isMuted := false,
                  localParticipant := s.localParticipant.map (fun lp =>
                    { lp with isMicrophoneEnabled := true, isMuted := false }) },
         [MsCmd.produceAudio], true)
      else ({ s with audioTrackEnabled := true }, [MsCmd.produceAudio], false)
    else
      ({ s with isMuted := false,
                localParticipant := s.localParticipant.map (fun lp =>
                  { lp with isMicrophoneEnabled := true, isMuted := false }) },
       [], true)
  else
    if s.hasAudioProducer then
      if engineOk then
        ({ s with isMuted := true,
                  localParticipant := s.localParticipant.map (fun lp =>
                    { lp with isMicrophoneEnabled := false, isMuted := true }) },
         [MsCmd.pauseProducer, MsCmd.emitPauseProducer], true)
      else (s, [MsCmd.pauseProducer], false)
    else
      ({ s with isMuted := true,
                localParticipant := s.localParticipant.map (fun lp =>
                  { lp with isMicrophoneEnabled := false, isMuted := true }) },
       [], true)

/-- One entry of the `consumersRef` map of `useMediasoup`
(`useWebRTC.ts` lines 196-198 and 264): consumer id, owning peer id and
the consumer's media kind. -/
structure ConsumerEntry where
  consumerId : Nat
  peerId : String
  kind : MediaKind
deriving DecidableEq, Repr

/-- Roster plus held consumers of a `useMediasoup` session. -/
structure MsRoom where
  participants : List RemoteParticipant
  consumers : List ConsumerEntry
deriving DecidableEq, Repr

/-- The full `peerLeft` handler (`useWebRTC.ts` lines 636-645): filters the
roster and deletes the departed peer's entries from the consumers map.
The second component lists the consumer ids on which `consumer.close()`
was invoked — this handler invokes none. -/
def msPeerLeft (peerId : String) (s : MsRoom) : MsRoom × List Nat :=
  ({ participants := s.participants.filter (fun p => p.id != peerId),
     consumers := s.consumers.filter (fun c => c.peerId != peerId) }, [])

/-- The `consumerClosed` handler (`useWebRTC.ts` lines 647-669): when the
consumer is held it is closed (`entry.consumer.close()`), removed from the
map, and the owning participant's track of that kind is cleared with the
corresponding off/muted flag set. -/
def msConsumerClosed (cid : Nat) (s : MsRoom) : MsRoom × List Nat :=
  match s.consumers.find? (fun c => c.consumerId == cid) with
  | none => (s, [])
  | some entry =>
      ({ participants := s.participants.map (fun p =>
            if p.id == entry.peerId then
              match entry.kind with
              | .video => { p with videoTrack := none, isVideoOff := true }
              | .audio => { p with audioTrack := none, isMuted := true }
            else p),
         consumers := s.consumers.filter (fun c => c.consumerId != cid) },
       [cid])

theorem consumeUpd_id (k : MediaKind) (t : Nat) (p : RemoteParticipant) :
    (consumeUpd k t p).id = p.id := by
  cases k <;> rfl

theorem consumeUpd_name (k : MediaKind) (t : Nat) (p : RemoteParticipant) :
    (consumeUpd k t p).name = p.name := by
  cases k <;> rfl

theorem freshWithTrack_id (i n : String) (k : MediaKind) (t : Nat) :
    (freshWithTrack i n k t).id = i := rfl

theorem consumeUpd_freshPeer (i n : String) (k : MediaKind) (t : Nat) :
    consumeUpd k t (freshPeer i n) = freshWithTrack i n k t := by
  cases k <;> rfl

theorem find?_map_consumeUpd (i : String) (k : MediaKind) (t : Nat) :
    ∀ s : List RemoteParticipant,
      (s.map (fun p => if p.id == i then consumeUpd k t p else p)).find?
          (fun p => p.id == i)
        = (s.find? (fun p => p.id == i)).map (consumeUpd k t)
  | [] => rfl
  | p :: s => by
      by_cases h : (p.id == i) = true
      · have h1 : (if p.id == i then consumeUpd k t p else p) = consumeUpd k t p := by
          simp [h]
        rw [List.map_cons, h1,
            List.find?_cons_of_pos (p := fun q : RemoteParticipant => q.id == i) _
              (by show ((consumeUpd k t p).id == i) = true
                  rw [consumeUpd_id]; exact h),
            List.find?_cons_of_pos (p := fun q : RemoteParticipant => q.id == i) _ h]
        rfl
      · have h0 : (p.id == i) = false := by simpa using h
        have h1 : (if p.id == i then consumeUpd k t p else p) = p := by
          simp [h0]
        rw [List.map_cons, h1,
            List.find?_cons_of_neg (p := fun q : RemoteParticipant => q.id == i) _ (by simp [h0]),
            List.find?_cons_of_neg (p := fun q : RemoteParticipant => q.id == i) _ (by simp [h0])]
        exact find?_map_consumeUpd i k t s

theorem map_consumeUpd_of_none {i : String} (k : MediaKind) (t : Nat)
    {s : List RemoteParticipant}
    (h : s.find? (fun p => p.id == i) = none) :
    s.map (fun p => if p.id == i then consumeUpd k t p else p) = s := by
  have h' := List.find?_eq_none.mp h
  have hcong : ∀ a ∈ s,
      (if a.id == i then consumeUpd k t a else a) = id a := by
    intro a ha
    simp [h' a ha]
  rw [List.map_congr_left hcong, List.map_id]

theorem find?_applyPeerLeft (i : String) (s : List RemoteParticipant) :
    (applyPeerLeft i s).find? (fun p => p.id == i) = none := by
  apply List.find?_eq_none.mpr
  intro x hx
  have hmem := List.mem_filter.mp hx
  simpa using hmem.2

theorem map_ids_map_consumeUpd (i : String) (k : MediaKind) (t : Nat)
    (s : List RemoteParticipant) :
    (s.map (fun p => if p.id == i then consumeUpd k t p else p)).map
        (fun p => p.id)
      = s.map (fun p => p.id) := by
  rw [List.map_map]
  apply List.map_congr_left
  intro a _
  by_cases h : (a.id == i) = true <;> simp [Function.comp, h, consumeUpd_id]

theorem applyEvent_uniqueIds (e : RosterEvent) (s : List RemoteParticipant)
    (h : uniqueIds s) : uniqueIds (applyEvent e s) := by
  cases e with
  | newPeer i n =>
      by_cases hf : ((s.find? (fun p => p.id == i)).isSome = true)
      · simpa [applyEvent, applyNewPeer, hf] using h
      · have hn : s.find? (fun p => p.id == i) = none :=
          Option.not_isSome_iff_eq_none.mp (by simpa using hf)
        have hnotin : i ∉ s.map (fun p => p.id) := by
          intro hmem
          obtain ⟨p, hp, hpid⟩ := List.mem_map.mp hmem
          exact (List.find?_eq_none.mp hn p hp) (by simp [hpid])
        have hrw : applyEvent (RosterEvent.newPeer i n) s
            = s ++ [freshPeer i n] := by
          simp [applyEvent, applyNewPeer, hf]
        rw [hrw]
        show ((s ++ [freshPeer i n]).map (fun p => p.id)).Nodup
        rw [List.map_append]
        refine List.nodup_append.mpr ⟨h, by simp, ?_⟩
        intro a ha hb
        simp [freshPeer] at hb
        subst hb
        exact hnotin ha
  | trackAvail i n k t =>
      by_cases hf : ((s.find? (fun p => p.id == i)).isSome = true)
      · have hrw : applyEvent (RosterEvent.trackAvail i n k t) s
            = s.map (fun p => if p.id == i then consumeUpd k t p else p) := by
          simp [applyEvent, applyTrackAvailable, hf]
        rw [hrw]
        show ((s.map fun p =>
            if p.id == i then consumeUpd k t p else p).map fun p => p.id).Nodup
        rw [map_ids_map_consumeUpd]
        exact h
      · have hn : s.find? (fun p => p.id == i) = none :=
          Option.not_isSome_iff_eq_none.mp (by simpa using hf)
        have hnotin : i ∉ s.map (fun p => p.id) := by
          intro hmem
          obtain ⟨p, hp, hpid⟩ := List.mem_map.mp hmem
          exact (List.find?_eq_none.mp hn p hp) (by simp [hpid])
        have hrw : applyEvent (RosterEvent.trackAvail i n k t) s
            = s ++ [freshWithTrack i n k t] := by
          simp [applyEvent, applyTrackAvailable, hf]
        rw [hrw]
        show ((s ++ [freshWithTrack i n k t]).map (fun p => p.id)).Nodup
        rw [List.map_append]
        refine List.nodup_append.mpr ⟨h, by simp, ?_⟩
        intro a ha hb
        simp [freshWithTrack_id] at hb
        subst hb
        exact hnotin ha
  | peerLeft i =>
      show ((s.filter fun p => p.id != i).map fun p => p.id).Nodup
      exact List.Nodup.sublist
        ((List.filter_sublist s).map (fun p => p.id)) h

theorem applyNewPeer_of_found (n : String) {i : String}
    {s : List RemoteParticipant}
    (h : (s.find? (fun p => p.id == i)).isSome = true) :
    applyNewPeer i n s = s := by
  unfold applyNewPeer
  rw [h]
  rfl

theorem applyNewPeer_of_none (n : String) {i : String}
    {s : List RemoteParticipant}
    (h : s.find? (fun p => p.id == i) = none) :
    applyNewPeer i n s = s ++ [freshPeer i n] := by
  unfold applyNewPeer
  rw [h]
  rfl

theorem applyTrackAvailable_of_found (n : String) {i : String}
    (k : MediaKind) (t : Nat) {s : List RemoteParticipant}
    (h : (s.find? (fun p => p.id == i)).isSome = true) :
    applyTrackAvailable i n k t s
      = s.map (fun q => if q.id == i then consumeUpd k t q else q) := by
  unfold applyTrackAvailable
  rw [h]
  rfl

theorem applyTrackAvailable_of_none (n : String) {i : String}
    (k : MediaKind) (t : Nat) {s : List RemoteParticipant}
    (h : s.find? (fun p => p.id == i) = none) :
    applyTrackAvailable i n k t s = s ++ [freshWithTrack i n k t] := by
  unfold applyTrackAvailable
  rw [h]
  rfl

theorem find?_singleton_freshPeer (i n : String) :
    ([freshPeer i n].find? (fun p => p.id == i)) = some (freshPeer i n) :=
  List.find?_cons_of_pos _ (by simp [freshPeer])

theorem find?_singleton_freshWithTrack (i n : String) (k : MediaKind)
    (t : Nat) :
    ([freshWithTrack i n k t].find? (fun p => p.id == i))
      = some (freshWithTrack i n k t) :=
  List.find?_cons_of_pos _ (by rw [freshWithTrack_id]; simp)

/-- Claim C1 (amended): in the `useMediasoup` roster, applying the
`newPeer` event twice in a row for the same id yields the same roster as
applying it once; a `newPeer` event for an id already present leaves the
roster entirely unchanged (so it neither creates a second entry nor resets
track state); and every sequence of roster events preserves
at-most-one-entry-per-id.  (The `useLiveKit` `ParticipantConnected`
handler, in contrast, appends unconditionally — see the counterexample.) -/
theorem newPeer_idempotent_and_unique :
    (∀ (s : List RemoteParticipant) (i n : String),
        applyNewPeer i n (applyNewPeer i n s) = applyNewPeer i n s)
  ∧ (∀ (s : List RemoteParticipant) (i n : String),
        (s.find? (fun p => p.id == i)).isSome = true → applyNewPeer i n s = s)
  ∧ (∀ (es : List RosterEvent) (s : List RemoteParticipant),
        uniqueIds s → uniqueIds (applyEvents es s)) := by
  refine ⟨?_, ?_, ?_⟩
  · intro s i n
    by_cases hf : (s.find? (fun p => p.id == i)).isSome = true
    · rw [applyNewPeer_of_found n hf, applyNewPeer_of_found n hf]
    · have hn : s.find? (fun p => p.id == i) = none :=
        Option.not_isSome_iff_eq_none.mp (by simpa using hf)
      rw [applyNewPeer_of_none n hn]
      apply applyNewPeer_of_found
      rw [List.find?_append, hn, find?_singleton_freshPeer]
      rfl
  · intro s i n hf
    exact applyNewPeer_of_found n hf
  · intro es
    induction es with
    | nil => intro s h; simpa [applyEvents] using h
    | cons e es ih =>
        intro s h
        have hrw : applyEvents (e :: es) s = applyEvents es (applyEvent e s) :=
          rfl
        rw [hrw]
        exact ih _ (applyEvent_uniqueIds e s h)

/-- Witness for C1: the hypotheses of the amended claim discharged at
concrete inputs. -/
theorem newPeer_idempotent_and_unique_witness :
    applyNewPeer "u2" "Bob" [freshPeer "u2" "Bob"] = [freshPeer "u2" "Bob"]
  ∧ uniqueIds (applyEvents
      [RosterEvent.newPeer "u2" "Bob", RosterEvent.newPeer "u2" "Bob"] []) :=
  ⟨newPeer_idempotent_and_unique.2.1 [freshPeer "u2" "Bob"] "u2" "Bob"
      (by decide),
   newPeer_idempotent_and_unique.2.2
      [RosterEvent.newPeer "u2" "Bob", RosterEvent.newPeer "u2" "Bob"] []
      (by decide)⟩

/-- Counterexample for C1 as stated: the `useLiveKit`
`ParticipantConnected` handler applied twice in a row for the same
identity creates a second roster entry, so the roster does not hold at
most one entry per id and double application differs from single
application. -/
theorem lk_duplicate_join_counterexample :
    (lkParticipantConnected "u2"
        (lkParticipantConnected "u2" ⟨[], none⟩)).participants = ["u2", "u2"]
  ∧ (lkParticipantConnected "u2" ⟨[], none⟩).participants = ["u2"]
  ∧ lkParticipantConnected "u2" (lkParticipantConnected "u2" ⟨[], none⟩)
      ≠ lkParticipantConnected "u2" ⟨[], none⟩ := by
  decide

/-- Claim C2: a track-available event arriving before the corresponding
peer-joined event for the same id is not lost — the two events commute,
and after track-available followed by peer-joined the roster entry found
for the id carries the track with its kind enabled. -/
theorem trackAvailable_join_comm :
    ∀ (s : List RemoteParticipant) (i n : String) (k : MediaKind) (t : Nat),
      applyNewPeer i n (applyTrackAvailable i n k t s)
          = applyTrackAvailable i n k t (applyNewPeer i n s)
      ∧ ∃ r, (applyNewPeer i n (applyTrackAvailable i n k t s)).find?
            (fun p => p.id == i) = some r
          ∧ trackOf k r = some t ∧ enabledOf k r = true := by
  intro s i n k t
  by_cases hf : (s.find? (fun p => p.id == i)).isSome = true
  · obtain ⟨p, hp⟩ := Option.isSome_iff_exists.mp hf
    have hta := applyTrackAvailable_of_found n k t hf
    have hfind : (s.map (fun q =>
        if q.id == i then consumeUpd k t q else q)).find?
        (fun q => q.id == i) = some (consumeUpd k t p) := by
      rw [find?_map_consumeUpd, hp]; rfl
    have hnp2 : applyNewPeer i n (applyTrackAvailable i n k t s)
        = applyTrackAvailable i n k t s := by
      rw [hta]
      exact applyNewPeer_of_found n (by rw [hfind]; rfl)
    have hnp1 : applyNewPeer i n s = s := applyNewPeer_of_found n hf
    refine ⟨by rw [hnp2, hnp1], consumeUpd k t p, ?_, ?_, ?_⟩
    · rw [hnp2, hta]; exact hfind
    · cases k <;> simp [consumeUpd, trackOf]
    · cases k <;> simp [consumeUpd, enabledOf]
  · have hn : s.find? (fun p => p.id == i) = none :=
      Option.not_isSome_iff_eq_none.mp (by simpa using hf)
    have hta := applyTrackAvailable_of_none n k t hn
    have hfind : (s ++ [freshWithTrack i n k t]).find? (fun p => p.id == i)
        = some (freshWithTrack i n k t) := by
      rw [List.find?_append, hn, find?_singleton_freshWithTrack]
      rfl
    have lhs : applyNewPeer i n (applyTrackAvailable i n k t s)
        = s ++ [freshWithTrack i n k t] := by
      rw [hta]
      exact applyNewPeer_of_found n (by rw [hfind]; rfl)
    have hnp1 : applyNewPeer i n s = s ++ [freshPeer i n] :=
      applyNewPeer_of_none n hn
    have hfindfp : (s ++ [freshPeer i n]).find? (fun p => p.id == i)
        = some (freshPeer i n) := by
      rw [List.find?_append, hn, find?_singleton_freshPeer]
      rfl
    have hmapfp : List.map (fun q =>
        if q.id == i then consumeUpd k t q else q) [freshPeer i n]
        = [freshWithTrack i n k t] := by
      rw [List.map_cons, List.map_nil,
          if_pos (show ((freshPeer i n).id == i) = true by simp [freshPeer]),
          consumeUpd_freshPeer]
    have rhs : applyTrackAvailable i n k t (applyNewPeer i n s)
        = s ++ [freshWithTrack i n k t] := by
      rw [hnp1, applyTrackAvailable_of_found n k t (by rw [hfindfp]; rfl),
          List.map_append, map_consumeUpd_of_none k t hn, hmapfp]
    refine ⟨by rw [lhs, rhs], freshWithTrack i n k t, ?_, ?_, ?_⟩
    · rw [lhs]; exact hfind
    · cases k <;> simp [freshWithTrack, trackOf]
    · cases k <;> simp [freshWithTrack, enabledOf]

/-- Claim C3 (amended): after a peer-left event the id is gone from the
roster, and a later peer-joined event recreates it as a fresh participant
with no tracks from before the departure; but a stale track-available
event for the id does re-add a participant — as a fresh entry holding
exactly that event's track and nothing from before the departure. -/
theorem peerLeft_then_events :
    ∀ (s : List RemoteParticipant) (i n : String) (k : MediaKind) (t : Nat),
      (applyPeerLeft i s).find? (fun p => p.id == i) = none
      ∧ applyTrackAvailable i n k t (applyPeerLeft i s)
          = applyPeerLeft i s ++ [freshWithTrack i n k t]
      ∧ applyNewPeer i n (applyPeerLeft i s)
          = applyPeerLeft i s ++ [freshPeer i n] := by
  intro s i n k t
  refine ⟨find?_applyPeerLeft i s, ?_, ?_⟩
  · exact applyTrackAvailable_of_none n k t (find?_applyPeerLeft i s)
  · exact applyNewPeer_of_none n (find?_applyPeerLeft i s)

/-- Counterexample for C3 as stated: after `peerLeft` for id `u2` empties
the roster, a single stale track-available event for `u2` re-adds a
participant with that id. -/
theorem stale_track_resurrects_counterexample :
    applyPeerLeft "u2" (applyNewPeer "u2" "Bob" []) = []
  ∧ ((applyTrackAvailable "u2" "Bob" MediaKind.audio 7
        (applyPeerLeft "u2" (applyNewPeer "u2" "Bob" []))).find?
        (fun p => p.id == "u2")).isSome = true := by
  decide

/-- Claim C4 (amended): an active-speakers-changed signal with an empty
ranked list leaves the whole state (in particular the active speaker)
unchanged; a non-empty list makes its top entry the new active speaker;
and a participant-disconnected event never changes the active speaker —
not even for the departed speaker's own id, so no event ever clears it. -/
theorem activeSpeaker_policy :
    (∀ s : LkRoomState, lkActiveSpeakersChanged [] s = s)
  ∧ (∀ (top : String) (rest : List String) (s : LkRoomState),
        (lkActiveSpeakersChanged (top :: rest) s).activeSpeaker = some top)
  ∧ (∀ (i : String) (s : LkRoomState),
        (lkParticipantDisconnected i s).activeSpeaker = s.activeSpeaker) :=
  ⟨fun _ => rfl, fun _ _ _ => rfl, fun _ _ => rfl⟩

/-- Counterexample for C4 as stated: with `u2` the active speaker, the
participant-disconnected event for `u2` removes it from the roster but
leaves it as the active speaker instead of clearing it. -/
theorem disconnect_keeps_speaker_counterexample :
    (lkParticipantDisconnected "u2" ⟨["u2"], some "u2"⟩).participants = []
  ∧ (lkParticipantDisconnected "u2" ⟨["u2"], some "u2"⟩).activeSpeaker
      = some "u2" := by
  decide

/-- Claim C5, evaluated at the failing input: starting from the consistent
state microphone-enabled with `isMuted = false`, a successful
`useLiveKit` `toggleMute` tells the engine to disable the microphone yet
leaves the local `isMuted` flag at `false` — the local flag is not
flipped (the sibling LiveKit hook writes `setIsMuted(currentlyEnabled)`
instead, documenting the intended polarity).  The rollback half of the
claim does hold: on engine failure the state is unchanged and the
rejection surfaces; and `useMediasoup`'s `toggleMute` both flips the flag
on success and preserves it on failure. -/
theorem toggleMute_polarity :
    (lkToggleMute ⟨some ⟨true, true⟩, false, false⟩ true).1.isMuted = false
  ∧ (lkToggleMute ⟨some ⟨true, true⟩, false, false⟩ true).2.1
      = [EngineCmd.setMicrophoneEnabled false]
  ∧ (lkToggleMute ⟨some ⟨true, true⟩, false, false⟩ true).1.localParticipant
      = some ⟨false, true⟩
  ∧ (lkToggleMute ⟨some ⟨true, true⟩, false, false⟩ false).1
      = ⟨some ⟨true, true⟩, false, false⟩
  ∧ (lkToggleMute ⟨some ⟨true, true⟩, false, false⟩ false).2.2 = false
  ∧ (msToggleMute ⟨false, true, true, true, true, some ⟨true, false⟩⟩
        true).1.isMuted = true
  ∧ (msToggleMute ⟨false, true, true, true, true, some ⟨true, false⟩⟩
        false).1
      = ⟨false, true, true, true, true, some ⟨true, false⟩⟩
  ∧ (msToggleMute ⟨false, true, true, true, true, some ⟨true, false⟩⟩
        false).2.2 = false := by
  decide

/-- Claim C6: once the `useLiveKit` effect cleanup (the leave path) has
run, the success continuation of the still-in-flight `connectRoom` leaves
the state exactly as the cleanup left it — no room handle, no local
participant, no roster population, no session flags — and only issues a
disconnect for the now-orphaned engine room. -/
theorem leave_cancels_join_continuation :
    ∀ (s : LkSession) (rh : Nat) (lid : String) (rids : List String)
      (ok : Bool),
      lkJoinSuccessCont rh lid rids ok (lkLeaveCleanup s).1
        = ((lkLeaveCleanup s).1, [EngineCmd.disconnect]) := by
  intro s rh lid rids ok
  rfl

/-- Claim C7, evaluated at the failing input: the `peerLeft` handler
removes the participant and drops its consumer entry but invokes
`consumer.close()` on nothing (empty close list), although its own
comment says it closes the departed peer's consumers and the
`consumerClosed` handler does close (third conjunct).  The unknown-id
half of the claim holds: `peerLeft` for an absent id changes nothing and
raises no error. -/
theorem peerLeft_drops_consumers_without_close :
    msPeerLeft "u2" ⟨[⟨"u2", "Bob", none, some 7, false, true⟩],
        [⟨1, "u2", MediaKind.audio⟩]⟩
      = (⟨[], []⟩, [])
  ∧ msPeerLeft "zz" ⟨[⟨"u2", "Bob", none, some 7, false, true⟩],
        [⟨1, "u2", MediaKind.audio⟩]⟩
      = (⟨[⟨"u2", "Bob", none, some 7, false, true⟩],
          [⟨1, "u2", MediaKind.audio⟩]⟩, [])
  ∧ (msConsumerClosed 1 ⟨[⟨"u2", "Bob", none, some 7, false, true⟩],
        [⟨1, "u2", MediaKind.audio⟩]⟩).2 = [1] := by
  decide

/-- Claim C8 (amended): the `useLiveKit` connect effect rejects a second
join while one is connecting or connected (either guard ref set means a
repeat invocation changes nothing, and the effect is idempotent, so no
interleaving of repeated invocations starts a second attempt); the
`useMediasoup` connect effect rejects a repeat join only once
`isConnectedRef` is set, i.e. only after the first connect has fully
completed. -/
theorem join_guard :
    (∀ s : LkCtl, (s.isConnectingRef || s.hasConnectedRef) = true →
        lkConnectEffect s = s)
  ∧ (∀ s : LkCtl, lkConnectEffect (lkConnectEffect s) = lkConnectEffect s)
  ∧ (∀ m : MsCtl, m.isConnectedRef = true → msConnectEffect m = m) := by
  refine ⟨?_, ?_, ?_⟩
  · intro s h
    cases hc : s.isConnectingRef with
    | true => simp [lkConnectEffect, hc]
    | false =>
        have h2 : s.hasConnectedRef = true := by
          rw [hc] at h; simpa using h
        simp [lkConnectEffect, h2]
  · intro s
    by_cases h : (!s.enabled || s.url == "" || s.token == ""
        || s.isConnectingRef || s.hasConnectedRef) = true
    · simp [lkConnectEffect, h]
    · have h0 : (!s.enabled || s.url == "" || s.token == ""
          || s.isConnectingRef || s.hasConnectedRef) = false := by
        simpa using h
      simp only [lkConnectEffect, h0, Bool.false_eq_true, if_false]
      simp
  · intro m h
    simp [msConnectEffect, h]

/-- Counterexample for C8 as stated: from a fresh `useMediasoup` controller
a first join starts connecting, and a second join issued while that first
connect is still in flight is not rejected — a second connection attempt
is started against the same room. -/
theorem ms_second_join_counterexample :
    (msConnectEffect ⟨true, "r1", "alice", false, false, 0⟩).connectInFlight
        = true
  ∧ (msConnectEffect ⟨true, "r1", "alice", false, false, 0⟩).isConnectedRef
        = false
  ∧ (msConnectEffect (msConnectEffect
        ⟨true, "r1", "alice", false, false, 0⟩)).attempts = 2 := by
  decide

/-- Witness for C8: the amended claim's hypotheses discharged at concrete
controller states. -/
theorem join_guard_witness :
    lkConnectEffect ⟨true, "wss", "tok", true, false, 3⟩
        = ⟨true, "wss", "tok", true, false, 3⟩
  ∧ msConnectEffect ⟨true, "r1", "alice", true, false, 1⟩
        = ⟨true, "r1", "alice", true, false, 1⟩ :=
  ⟨join_guard.1 ⟨true, "wss", "tok", true, false, 3⟩ (by decide),
   join_guard.2.2 ⟨true, "r1", "alice", true, false, 1⟩ (by decide)⟩

/-- Claim C9: applying a track-available event of kind `k`.  On an existing
participant the entry found for the id keeps its id and display name, gets
the track stored with kind `k` enabled, and keeps the other kind's track
and enabled flag unchanged; the roster length is unchanged and every other
participant is still present.  When no entry exists, the appended fresh
participant carries the track with kind `k` enabled, while the other
kind's track is absent and its enabled flag is false. -/
theorem trackAvailable_frame (s : List RemoteParticipant) (i n : String)
    (k : MediaKind) (t : Nat) :
    (∀ p, s.find? (fun q => q.id == i) = some p →
        ∃ r, (applyTrackAvailable i n k t s).find? (fun q => q.id == i)
              = some r
          ∧ r.id = p.id ∧ r.name = p.name
          ∧ trackOf k r = some t ∧ enabledOf k r = true
          ∧ trackOf k.other r = trackOf k.other p
          ∧ enabledOf k.other r = enabledOf k.other p
          ∧ (applyTrackAvailable i n k t s).length = s.length
          ∧ ∀ q ∈ s, q.id ≠ i → q ∈ applyTrackAvailable i n k t s)
  ∧ (s.find? (fun q => q.id == i) = none →
        applyTrackAvailable i n k t s = s ++ [freshWithTrack i n k t]
        ∧ (freshWithTrack i n k t).id = i
        ∧ (freshWithTrack i n k t).name = n
        ∧ trackOf k (freshWithTrack i n k t) = some t
        ∧ enabledOf k (freshWithTrack i n k t) = true
        ∧ trackOf k.other (freshWithTrack i n k t) = none
        ∧ enabledOf k.other (freshWithTrack i n k t) = false) := by
  constructor
  · intro p hp
    have hf : (s.find? (fun q => q.id == i)).isSome = true := by
      rw [hp]; rfl
    have hta := applyTrackAvailable_of_found n k t hf
    refine ⟨consumeUpd k t p, ?_, consumeUpd_id k t p, consumeUpd_name k t p,
        ?_, ?_, ?_, ?_, ?_, ?_⟩
    · rw [hta, find?_map_consumeUpd, hp]; rfl
    · cases k <;> simp [consumeUpd, trackOf]
    · cases k <;> simp [consumeUpd, enabledOf]
    · cases k <;> simp [consumeUpd, trackOf, MediaKind.other]
    · cases k <;> simp [consumeUpd, enabledOf, MediaKind.other]
    · rw [hta, List.length_map]
    · intro q hq hqi
      have h0 : (q.id == i) = false := beq_eq_false_iff_ne.mpr hqi
      rw [hta]
      have hmem := List.mem_map_of_mem
        (fun q2 => if q2.id == i then consumeUpd k t q2 else q2) hq
      simpa [h0] using hmem
  · intro hn
    refine ⟨applyTrackAvailable_of_none n k t hn, rfl, rfl, ?_, ?_, ?_, ?_⟩
    · cases k <;> simp [freshWithTrack, trackOf]
    · cases k <;> simp [freshWithTrack, enabledOf]
    · cases k <;> simp [freshWithTrack, trackOf, MediaKind.other]
    · cases k <;> simp [freshWithTrack, enabledOf, MediaKind.other]

/-- Witness for C9: both halves applied at concrete rosters, the
hypotheses discharged by computation. -/
theorem trackAvailable_frame_witness :
    (∃ r, (applyTrackAvailable "u2" "Bob" MediaKind.video 3
            [freshPeer "u2" "Bob"]).find? (fun q => q.id == "u2") = some r
        ∧ r.id = (freshPeer "u2" "Bob").id
        ∧ r.name = (freshPeer "u2" "Bob").name
        ∧ trackOf MediaKind.video r = some 3
        ∧ enabledOf MediaKind.video r = true
        ∧ trackOf MediaKind.video.other r
            = trackOf MediaKind.video.other (freshPeer "u2" "Bob")
        ∧ enabledOf MediaKind.video.other r
            = enabledOf MediaKind.video.other (freshPeer "u2" "Bob")
        ∧ (applyTrackAvailable "u2" "Bob" MediaKind.video 3
            [freshPeer "u2" "Bob"]).length
            = ([freshPeer "u2" "Bob"] : List RemoteParticipant).length
        ∧ ∀ q ∈ ([freshPeer "u2" "Bob"] : List RemoteParticipant),
            q.id ≠ "u2" →
              q ∈ applyTrackAvailable "u2" "Bob" MediaKind.video 3
                    [freshPeer "u2" "Bob"])
  ∧ (applyTrackAvailable "u3" "Eve" MediaKind.audio 9 []
        = [] ++ [freshWithTrack "u3" "Eve" MediaKind.audio 9]
      ∧ (freshWithTrack "u3" "Eve" MediaKind.audio 9).id = "u3"
      ∧ (freshWithTrack "u3" "Eve" MediaKind.audio 9).name = "Eve"
      ∧ trackOf MediaKind.audio (freshWithTrack "u3" "Eve" MediaKind.audio 9)
          = some 9
      ∧ enabledOf MediaKind.audio
          (freshWithTrack "u3" "Eve" MediaKind.audio 9) = true
      ∧ trackOf MediaKind.audio.other
          (freshWithTrack "u3" "Eve" MediaKind.audio 9) = none
      ∧ enabledOf MediaKind.audio.other
          (freshWithTrack "u3" "Eve" MediaKind.audio 9) = false) :=
  ⟨(trackAvailable_frame [freshPeer "u2" "Bob"] "u2" "Bob"
      MediaKind.video 3).1 (freshPeer "u2" "Bob") (by decide),
   (trackAvailable_frame [] "u3" "Eve" MediaKind.audio 9).2 (by decide)⟩

/-- Claim C10: calling `useLiveKit`'s `toggleMute` or `toggleVideo` before
the local participant exists is a total no-op — no engine command, no
state change, and a normal return (no error). -/
theorem toggle_before_join_noop :
    ∀ (s : LkToggleState) (ok : Bool), s.localParticipant = none →
      lkToggleMute s ok = (s, [], true)
      ∧ lkToggleVideo s ok = (s, [], true) := by
  intro s ok h
  obtain ⟨lp, im, iv⟩ := s
  cases h
  exact ⟨rfl, rfl⟩

/-- Witness for C10: the no-op at a concrete pre-join state. -/
theorem toggle_before_join_noop_witness :
    lkToggleMute ⟨none, false, false⟩ true = (⟨none, false, false⟩, [], true)
  ∧ lkToggleVideo ⟨none, false, false⟩ true
      = (⟨none, false, false⟩, [], true) :=
  toggle_before_join_noop ⟨none, false, false⟩ true rfl
